import Mathlib

/-!
Shallow embedding of ts-fileserver (src/app.go): path resolution,
the HTTP handler `FileServer.ServeHTTP`, and constructor `NewFileServer`,
together with theorems settling the spec claims.

Bytes are modelled as `Nat`, file contents as `List Nat`, the filesystem
as an association list from absolute path to node (the order of the list
is the filesystem's native enumeration order of entries).

String primitives (split on slash, prefix test, ordering) are embedded as
structural recursions over the character list of a `String`, so that every
definition evaluates inside the kernel; each mirrors the corresponding Go
standard-library function used by src/app.go.
-/

/-- Split a character list at a separator character; embedding of the
segment decomposition performed by Go `strings`/`path` on "/". -/
def splitOnChar (c : Char) : List Char → List (List Char)
  | [] => [[]]
  | x :: xs =>
    let r := splitOnChar c xs
    if x = c then [] :: r
    else
      match r with
      | [] => [[x]]
      | h :: t => (x :: h) :: t

/-- The "/"-separated segments of a path string. -/
def pathSegments (s : String) : List String :=
  (splitOnChar '/' s.data).map String.mk

/-- Embedding of Go `strings.HasPrefix pre s` over character lists. -/
def listIsPrefix : List Char → List Char → Bool
  | [], _ => true
  | _ :: _, [] => false
  | a :: as, b :: bs => if a = b then listIsPrefix as bs else false

/-- Embedding of Go `strings.HasPrefix s pre` (argument order as in Go). -/
def hasPrefixStr (s pre : String) : Bool :=
  listIsPrefix pre.data s.data

/-- Byte-wise lexicographic order on names, as Go's filename sort uses. -/
def charListLe : List Char → List Char → Bool
  | [], _ => true
  | _ :: _, [] => false
  | a :: as, b :: bs => if a = b then charListLe as bs else decide (a.toNat < b.toNat)

/-- Lexicographic `≤` on strings (byte-wise for ASCII names). -/
def strLe (a b : String) : Bool :=
  charListLe a.data b.data

/-- Join segments with "/"; helper for `pathClean`. -/
def intercalateSlash : List String → String
  | [] => ""
  | [x] => x
  | x :: y :: xs => x ++ "/" ++ intercalateSlash (y :: xs)

/-- Whether the path is rooted (begins with "/"). -/
def isRooted (s : String) : Bool :=
  match s.data with
  | '/' :: _ => true
  | _ => false

/-- Embedding of Go `path.Clean`'s stack step: process one path segment.
Empty and "." segments are dropped; ".." pops a non-".." top element,
is dropped at the root of a rooted path, and is kept otherwise. -/
def cleanStep (rooted : Bool) (stack : List String) (seg : String) : List String :=
  if seg = "" ∨ seg = "." then stack
  else if seg = ".." then
    match stack with
    | [] => if rooted then [] else [".."]
    | top :: rest => if top = ".." then seg :: stack else rest
  else seg :: stack

/-- Embedding of Go `path.Clean`: lexical normalization of a
slash-separated path (shortest equivalent path). -/
def pathClean (p : String) : String :=
  let rooted := isRooted p
  let elems := ((pathSegments p).foldl (cleanStep rooted) []).reverse
  if rooted then "/" ++ intercalateSlash elems
  else if elems.isEmpty then "." else intercalateSlash elems

/-- Embedding of Go `path.Join` for two elements: empty elements are
ignored, the rest joined with "/" and the result Cleaned. -/
def pathJoin (a b : String) : String :=
  if a = "" ∧ b = "" then ""
  else if a = "" then pathClean b
  else if b = "" then pathClean a
  else pathClean (a ++ "/" ++ b)

/-- Embedding of Go `path.Dir`: everything up to and including the final
slash, Cleaned; "." when the path holds no slash. -/
def pathDir (p : String) : String :=
  let parts := pathSegments p
  if parts.length ≤ 1 then "."
  else pathClean (intercalateSlash parts.dropLast ++ "/")

/-- Embedding of Go (unix) `filepath.Abs`: an absolute path is Cleaned,
a relative one joined onto the working directory. -/
def filepathAbs (cwd p : String) : String :=
  if isRooted p then pathClean p else pathJoin cwd p

example : pathClean "/srv//../srvx" = "/srvx" := by decide
example : pathClean "/a/../../etc/passwd" = "/etc/passwd" := by decide
example : pathClean "" = "." := by decide
example : pathClean "/" = "/" := by decide
example : pathJoin "/srv" "/new/deep/file.txt" = "/srv/new/deep/file.txt" := by decide
example : pathDir "/srv/new/deep/file.txt" = "/srv/new/deep" := by decide
example : pathDir "/a" = "/" := by decide
example : hasPrefixStr "/srvx" "/srv" = true := by decide
example : strLe "b" "ab" = false := by decide

/-- A filesystem node: a regular file with its byte contents, or a
directory. -/
inductive Node
  | file : List Nat → Node
  | dir : Node
deriving DecidableEq

/-- The filesystem: an association list from absolute path to node.
The order of the list is the filesystem's native enumeration order. -/
structure FS where
  entries : List (String × Node)
deriving DecidableEq

/-- Find the node stored at a path in the entry list. -/
def lookupEntry (p : String) : List (String × Node) → Option Node
  | [] => none
  | (k, v) :: es => if k = p then some v else lookupEntry p es

/-- Embedding of `os.Stat`: `none` is a stat error (no such entry). -/
def FS.stat (fs : FS) (p : String) : Option Node :=
  lookupEntry p fs.entries

/-- Replace the node stored under key `p` wherever it occurs. -/
def replaceEntry (p : String) (n : Node) : List (String × Node) → List (String × Node)
  | [] => []
  | (k, v) :: es =>
    if k = p then (p, n) :: replaceEntry p n es
    else (k, v) :: replaceEntry p n es

/-- Write a node at a path: replace in place when present, else append
(a new entry appears at the end of the native enumeration order). -/
def FS.set (fs : FS) (p : String) (n : Node) : FS :=
  if (lookupEntry p fs.entries).isSome then ⟨replaceEntry p n fs.entries⟩
  else ⟨fs.entries ++ [(p, n)]⟩

/-- The entry name when `q` is an immediate child path of directory `p`. -/
def childNameOf (p q : String) : Option String :=
  let pre := if p = "/" then "/" else p ++ "/"
  if hasPrefixStr q pre then
    let name := String.mk (q.data.drop pre.data.length)
    if name ≠ "" ∧ ¬ name.data.elem '/' then some name else none
  else none

/-- The immediate children of directory `p`, in native (entry) order. -/
def FS.childNames (fs : FS) (p : String) : List String :=
  fs.entries.filterMap (fun e => childNameOf p e.1)

/-- Insert into a `strLe`-sorted list of names. -/
def insertSorted (x : String) : List String → List String
  | [] => [x]
  | y :: ys => if strLe x y then x :: y :: ys else y :: insertSorted x ys

/-- Sort names by `strLe`. Embedding of the sorted order that Go
`os.ReadDir` documents: "returns all its directory entries sorted by
filename". -/
def sortByName (l : List String) : List String :=
  l.foldr insertSorted []

/-- Embedding of `os.ReadDir` on an existing directory: its immediate
children sorted by filename. -/
def FS.readDir (fs : FS) (p : String) : List String :=
  sortByName (fs.childNames p)

/-- One step list of chunks, fuelled so that it evaluates in the kernel;
`fuel > data.length` suffices when the buffer is nonempty. -/
def copyChunksGo : Nat → Nat → List Nat → List (List Nat)
  | 0, _, _ => []
  | _ + 1, _, [] => []
  | fuel + 1, b, d => d.take b :: copyChunksGo fuel b (d.drop b)

/-- Embedding of `io.CopyBuffer` with a buffer of size `b`: the source
bytes delivered to the destination as successive chunks of at most `b`
bytes. -/
def copyChunks (b : Nat) (d : List Nat) : List (List Nat) :=
  copyChunksGo (d.length + 1) b d

/-- The fixed 1 MiB buffer size used by both streaming copies. -/
def bufSize : Nat := 1024 * 1024

/-- Recursive worker of `os.MkdirAll`, fuelled: an existing directory is
left alone, an existing file is an error (`ENOTDIR`), a missing path has
its parent made first and is then created. `fuel > p.length` suffices
because a parent path is strictly shorter. -/
def mkdirAllGo : Nat → FS → String → Except Unit FS
  | 0, fs, _ => .ok fs
  | fuel + 1, fs, p =>
    match fs.stat p with
    | some .dir => .ok fs
    | some (.file _) => .error ()
    | none =>
      let par := pathDir p
      if par.data.length < p.data.length then
        match mkdirAllGo fuel fs par with
        | .error e => .error e
        | .ok fs2 => .ok (fs2.set p Node.dir)
      else .ok (fs.set p Node.dir)

/-- Embedding of `os.MkdirAll`. -/
def mkdirAll (fs : FS) (p : String) : Except Unit FS :=
  mkdirAllGo (p.data.length + 1) fs p

example : mkdirAll ⟨[("/srv", .dir)]⟩ "/srv/a/b"
    = .ok ⟨[("/srv", .dir), ("/srv/a", .dir), ("/srv/a/b", .dir)]⟩ := rfl
example : mkdirAll ⟨[("/srv", .dir), ("/srv/a", .file [1])]⟩ "/srv/a/b"
    = .error () := rfl
example : copyChunks 2 [1,2,3,4,5] = [[1,2],[3,4],[5]] := by decide

/-- HTTP method of a request; `other` covers every method besides GET
and POST, which src/app.go leaves unhandled. -/
inductive Method
  | get
  | post
  | other
deriving DecidableEq

/-- An inbound HTTP request: method, the raw URL path, and the body. -/
structure Request where
  method : Method
  urlPath : String
  body : List Nat
deriving DecidableEq

/-- A piece of output written to the response body: a formatted string
(`fmt.Fprintf`) or a chunk of raw file bytes (`io.CopyBuffer`). -/
inductive Piece
  | str : String → Piece
  | bytes : List Nat → Piece
deriving DecidableEq

/-- The response: status code (200 unless `WriteHeader` was called),
headers added, and the body as the list of written pieces. -/
structure Response where
  status : Nat
  headers : List (String × String)
  out : List Piece
deriving DecidableEq

/-- The `FileServer` handler state: absolute root and the writable flag. -/
structure FileServer where
  root : String
  writable : Bool
deriving DecidableEq

/-- Part of `HTML_PRELUDE` before the upload form (verbatim from the Go
constant; braces, apostrophes and quotes are hex/backslash escapes). -/
def PRELUDE_BEFORE_FORM : String :=
  "\n<!DOCTYPE html>\n<html lang=\"en\">\n    <head>\n        <meta charset=\"utf-8\" />\n        <meta name=\"viewport\" content=\"width=device-width, initial-scale=1.0\" />\n    \t<title>ts-fileserver</title>\n\t\t<link rel=\"stylesheet\" href=\"https://cdn.jsdelivr.net/npm/sakura.css/css/sakura.css\" type=\"text/css\">\n    </head>\n    \n<body>\n\n<script>\nasync function upload() \x7b\n\tconst input = document.getElementById(\"file\")\n\tfor (const file of input.files) \x7b\n\t    const \x7bname\x7d = file\n\t    const url = window.location.toString() + \"/\" + name\n\t    const xhr = new XMLHttpRequest()\n\t    xhr.open(\x27POST\x27, url, true)\n\t    xhr.upload.onprogress = function(event) \x7b\n\t      if (event.lengthComputable) \x7b\n\t          const percentComplete = (event.loaded / event.total) * 100;\n\t          document.getElementById(\"status\").innerText = (name + \": \" + percentComplete.toFixed(2) + \"%\");\n\t      \x7d\n\t\t\x7d;\n\t    console.log(file)\n\t    xhr.send(file)\n\t\x7d\n\tdocument.getElementById(\"status\").innerText = \"Finished\"\n\x7d\n</script>\n\n"

/-- The inline upload form line of `HTML_PRELUDE` (verbatim). -/
def UPLOAD_FORM : String :=
  "<input type=\"file\" id=\"file\" multiple /><button onclick=\"upload()\">Upload</button>"

/-- Part of `HTML_PRELUDE` after the upload form (verbatim). -/
def PRELUDE_AFTER_FORM : String :=
  "\n<p id=\"status\"></p>\n<ul>\n"

/-- The Go constant `HTML_PRELUDE`: the three parts above concatenated
reproduce the raw string of src/app.go byte for byte. -/
def HTML_PRELUDE : String :=
  PRELUDE_BEFORE_FORM ++ UPLOAD_FORM ++ PRELUDE_AFTER_FORM

/-- Embedding of `FileServer.WriteHTMLPrelude`: writes the constant
`HTML_PRELUDE`, taking nothing from the receiver. -/
def writeHTMLPrelude (_f : FileServer) : String :=
  HTML_PRELUDE

/-- One rendered directory entry, as the Fprintf in the listing loop:
a list item whose href is `r.URL.JoinPath(name)` (the request path joined
with the entry name, cleaned) and whose text is the entry name. -/
def listItem (urlPath name : String) : String :=
  "<li><a href=\"" ++ pathJoin urlPath name ++ "\">" ++ name ++ "</a></li>"

/-- The stat-error text embedded in a 500 body (`err.Error()` of the
not-found case). -/
def statErrText (p : String) : String :=
  "stat " ++ p ++ ": no such file or directory"

/-- Embedding of the GET branch of `FileServer.ServeHTTP`, after the
containment check passed; `item` is the resolved path. Returns only a
response: every operation of this branch (Stat, ReadDir, Open, Read) is
read-only. -/
def handleGet (f : FileServer) (fs : FS) (r : Request) (item : String) : Response :=
  match fs.stat item with
  | none =>
    ⟨500, [], [.str ("can't stat item: " ++ statErrText item)]⟩
  | some Node.dir =>
    ⟨200, [],
      .str (writeHTMLPrelude f)
        :: .str ("<h1>Files in " ++ item ++ "</h1>")
        :: (fs.readDir item).map (fun name => .str (listItem r.urlPath name))⟩
  | some (Node.file content) =>
    ⟨200,
      [("Content-Length", toString content.length),
       ("Content-Type", "application/octet-stream")],
      (copyChunks bufSize content).map Piece.bytes⟩

/-- Embedding of the POST branch of `FileServer.ServeHTTP` with writing
enabled, after the containment check passed. -/
def handlePost (fs : FS) (r : Request) (item : String) : Response × FS :=
  match fs.stat item with
  | some Node.dir =>
    (⟨400, [], [.str "path should not be a existing folder"]⟩, fs)
  | _ =>
    match mkdirAll fs (pathDir item) with
    | .error _ =>
      (⟨500, [], [.str "can't create parent directory: not a directory"]⟩, fs)
    | .ok fs2 =>
      (⟨200, [], []⟩, fs2.set item (Node.file (copyChunks bufSize r.body).flatten))

/-- Embedding of `FileServer.ServeHTTP`: join root and request path,
reject non-prefixed results, then dispatch on the method. -/
def serveHTTP (f : FileServer) (fs : FS) (r : Request) : Response × FS :=
  let item := pathJoin f.root r.urlPath
  if ¬ hasPrefixStr item f.root then
    (⟨400, [], [.str "nice try!"]⟩, fs)
  else
    match r.method with
    | .get => (handleGet f fs r item, fs)
    | .post =>
      if ¬ f.writable then
        (⟨403, [], [.str "i'm afraid i can't do that"]⟩, fs)
      else handlePost fs r item
    | .other => (⟨200, [], []⟩, fs)

/-- Construction-time errors of `NewFileServer`: a stat failure on the
root, or a root that exists but is not a directory (`ErrNotADir`). -/
inductive NewFSError
  | statErr
  | notADir
deriving DecidableEq

/-- Embedding of `NewFileServer`: make the root absolute, stat it,
reject a missing root (stat error) or a non-directory root
(`ErrNotADir`), and store the absolute root with the writable flag. -/
def newFileServer (cwd root : String) (writable : Bool) (fs : FS) :
    Except NewFSError FileServer :=
  let aroot := filepathAbs cwd root
  match fs.stat aroot with
  | none => .error NewFSError.statErr
  | some (Node.file _) => .error NewFSError.notADir
  | some Node.dir => .ok ⟨aroot, writable⟩

/-- Flattening the fuelled chunk list restores the source bytes when the
buffer is nonempty and the fuel exceeds the byte count. -/
theorem copyChunksGo_flatten (b : Nat) (hb : 0 < b) :
    ∀ fuel d, d.length < fuel → (copyChunksGo fuel b d).flatten = d := by
  intro fuel
  induction fuel with
  | zero => intro d h; exact absurd h (Nat.not_lt_zero _)
  | succ f ih =>
    intro d h
    cases d with
    | nil => rfl
    | cons x xs =>
      have hdrop : (List.drop b (x :: xs)).length < f := by
        rw [List.length_drop]
        simp only [List.length_cons] at h ⊢
        omega
      show (List.take b (x :: xs) :: copyChunksGo f b (List.drop b (x :: xs))).flatten
          = x :: xs
      rw [List.flatten_cons, ih _ hdrop, List.take_append_drop]

/-- `io.CopyBuffer` with a nonempty buffer delivers exactly the source
bytes. -/
theorem copyChunks_flatten (b : Nat) (d : List Nat) (hb : 0 < b) :
    (copyChunks b d).flatten = d :=
  copyChunksGo_flatten b hb (d.length + 1) d (Nat.lt_succ_self _)

/-- Looking up the key just replaced in an entry list. -/
theorem lookupEntry_replace_self (p : String) (n : Node) :
    ∀ l : List (String × Node), (lookupEntry p l).isSome →
      lookupEntry p (replaceEntry p n l) = some n := by
  intro l
  induction l with
  | nil => intro h; simp [lookupEntry] at h
  | cons e es ih =>
    obtain ⟨k, v⟩ := e
    intro h
    by_cases hk : k = p
    · simp [replaceEntry, lookupEntry, hk]
    · simp only [lookupEntry, if_neg hk] at h
      simpa [replaceEntry, lookupEntry, hk] using ih h

/-- Looking up a key appended to an entry list where it was absent. -/
theorem lookupEntry_append_new (p : String) (n : Node) :
    ∀ l : List (String × Node), lookupEntry p l = none →
      lookupEntry p (l ++ [(p, n)]) = some n := by
  intro l
  induction l with
  | nil => intro _; simp [lookupEntry]
  | cons e es ih =>
    obtain ⟨k, v⟩ := e
    intro h
    by_cases hk : k = p
    · simp [lookupEntry, hk] at h
    · simp only [lookupEntry, if_neg hk] at h
      simpa [lookupEntry, hk] using ih h

/-- Replacing the node at `p` does not change a lookup at `q ≠ p`. -/
theorem lookupEntry_replace_other (p q : String) (n : Node) (h : q ≠ p) :
    ∀ l : List (String × Node),
      lookupEntry q (replaceEntry p n l) = lookupEntry q l := by
  intro l
  induction l with
  | nil => rfl
  | cons e es ih =>
    obtain ⟨k, v⟩ := e
    by_cases hk : k = p
    · have hkq : ¬ k = q := fun hh => h (hk ▸ hh.symm)
      have hpq : ¬ p = q := fun hh => h hh.symm
      simp [replaceEntry, lookupEntry, hk, hkq, hpq, ih]
    · by_cases hkq : k = q <;> simp [replaceEntry, lookupEntry, hk, hkq, h, ih]

/-- Appending an entry at `p` does not change a lookup at `q ≠ p`. -/
theorem lookupEntry_append_other (p q : String) (n : Node) (h : q ≠ p) :
    ∀ l : List (String × Node),
      lookupEntry q (l ++ [(p, n)]) = lookupEntry q l := by
  intro l
  induction l with
  | nil =>
    have hpq : ¬ p = q := fun hh => h hh.symm
    simp [lookupEntry, hpq]
  | cons e es ih =>
    obtain ⟨k, v⟩ := e
    by_cases hkq : k = q <;> simp [lookupEntry, hkq, ih]

/-- `FS.set` makes the written node visible at the written path. -/
theorem FS.stat_set_self (fs : FS) (p : String) (n : Node) :
    (fs.set p n).stat p = some n := by
  unfold FS.set FS.stat
  by_cases h : (lookupEntry p fs.entries).isSome
  · rw [if_pos h]
    exact lookupEntry_replace_self p n fs.entries h
  · rw [if_neg h]
    apply lookupEntry_append_new
    cases hl : lookupEntry p fs.entries with
    | none => rfl
    | some v => rw [hl] at h; simp at h

/-- `FS.set` leaves every other path unchanged. -/
theorem FS.stat_set_other (fs : FS) (p q : String) (n : Node) (h : q ≠ p) :
    (fs.set p n).stat q = fs.stat q := by
  unfold FS.set FS.stat
  by_cases hs : (lookupEntry p fs.entries).isSome
  · rw [if_pos hs]
    exact lookupEntry_replace_other p q n h fs.entries
  · rw [if_neg hs]
    exact lookupEntry_append_other p q n h fs.entries

/-- A successful `mkdirAllGo` leaves a directory at the requested path
(one unfolding suffices: every success branch ends in an existing
directory or an `FS.set _ Node.dir`). -/
theorem mkdirAllGo_ok_stat (fuel : Nat) (fs fs2 : FS) (p : String)
    (h : mkdirAllGo (fuel + 1) fs p = Except.ok fs2) :
    fs2.stat p = some Node.dir := by
  unfold mkdirAllGo at h
  cases hstat : fs.stat p with
  | some n =>
    cases n with
    | dir =>
      rw [hstat] at h
      cases h
      exact hstat
    | file c =>
      rw [hstat] at h
      cases h
  | none =>
    rw [hstat] at h
    simp only at h
    by_cases hlt : (pathDir p).data.length < p.data.length
    · rw [if_pos hlt] at h
      cases hrec : mkdirAllGo fuel fs (pathDir p) with
      | error e => rw [hrec] at h; cases h
      | ok fs3 =>
        rw [hrec] at h
        cases h
        exact FS.stat_set_self fs3 p Node.dir
    · rw [if_neg hlt] at h
      cases h
      exact FS.stat_set_self fs p Node.dir

/-- A successful `os.MkdirAll` leaves a directory at the requested path. -/
theorem mkdirAll_ok_stat (fs fs2 : FS) (p : String)
    (h : mkdirAll fs p = Except.ok fs2) : fs2.stat p = some Node.dir :=
  mkdirAllGo_ok_stat p.data.length fs fs2 p h

/-- Inserting into the sorted list is a permutation of consing. -/
theorem insertSorted_perm (x : String) :
    ∀ l : List String, List.Perm (insertSorted x l) (x :: l) := by
  intro l
  induction l with
  | nil => exact List.Perm.refl _
  | cons y ys ih =>
    by_cases hxy : strLe x y
    · simp [insertSorted, hxy]
    · simp only [insertSorted, hxy, Bool.false_eq_true, if_false]
      exact ((ih.cons y).trans (List.Perm.swap x y ys))

/-- The filename sort of `os.ReadDir` is a permutation of the native
enumeration: the listing shows exactly the directory's children. -/
theorem sortByName_perm (l : List String) :
    List.Perm (sortByName l) l := by
  induction l with
  | nil => exact List.Perm.refl _
  | cons x xs ih =>
    show List.Perm (insertSorted x (sortByName xs)) (x :: xs)
    exact (insertSorted_perm x (sortByName xs)).trans (ih.cons x)

/-- Claim C1, evaluated at its failing input: with base "/srv", the
request path "/../srvx" resolves to "/srvx", which is neither the base
nor prefixed by the base followed by the separator, yet the bare
`strings.HasPrefix` check of ServeHTTP accepts it and the handler serves
the file "/srvx" that lies outside the base (status 200, its bytes as
body), instead of rejecting with 400 as the claimed invariant requires. -/
theorem c1_sibling_escape_served :
    pathJoin "/srv" "/../srvx" = "/srvx" ∧
    hasPrefixStr "/srvx" "/srv" = true ∧
    (serveHTTP ⟨"/srv", false⟩ ⟨[("/srv", Node.dir), ("/srvx", Node.file [42])]⟩
        ⟨Method.get, "/../srvx", []⟩).1 =
      ⟨200, [("Content-Length", "1"), ("Content-Type", "application/octet-stream")],
        [Piece.bytes [42]]⟩ ∧
    ¬ ("/srvx" = "/srv" ∨ hasPrefixStr "/srvx" ("/srv" ++ "/") = true) := by
  refine ⟨by decide, by decide, ?_, by decide⟩
  rfl

/-- Sanity: a path that normalizes fully outside the base is rejected
with 400 "nice try!" (the spec scenario GET /a/../../etc/passwd). -/
example :
    (serveHTTP ⟨"/srv", false⟩ ⟨[("/srv", Node.dir)]⟩
        ⟨Method.get, "/a/../../etc/passwd", []⟩).1 =
      ⟨400, [], [Piece.str "nice try!"]⟩ := by
  rfl

/-- Claim C2, refuted at a concrete input: a POST whose path escapes the
base is answered 400 "nice try!" by the containment check, which runs
before the writable check, not 403 as the claim states for every POST
regardless of path. -/
theorem c2_counterexample :
    (serveHTTP ⟨"/srv", false⟩ ⟨[("/srv", Node.dir)]⟩
        ⟨Method.post, "/../../x", [1]⟩).1 =
      ⟨400, [], [Piece.str "nice try!"]⟩ ∧
    (400 : Nat) ≠ 403 := by
  exact ⟨rfl, by decide⟩

/-- Claim C2 as amended: for every POST while `writable` is false the
filesystem is unchanged; a POST whose resolved path passes the
containment check gets 403 with the fixed refusal message, and one whose
path fails the check gets 400 "nice try!". -/
theorem c2_post_not_writable (f : FileServer) (fs : FS) (r : Request)
    (hm : r.method = Method.post) (hw : f.writable = false) :
    (serveHTTP f fs r).2 = fs ∧
    (hasPrefixStr (pathJoin f.root r.urlPath) f.root = true →
      (serveHTTP f fs r).1 = ⟨403, [], [Piece.str "i'm afraid i can't do that"]⟩) ∧
    (hasPrefixStr (pathJoin f.root r.urlPath) f.root = false →
      (serveHTTP f fs r).1 = ⟨400, [], [Piece.str "nice try!"]⟩) := by
  cases hacc : hasPrefixStr (pathJoin f.root r.urlPath) f.root with
  | true =>
    refine ⟨?_, fun _ => ?_, fun hcontra => nomatch hcontra⟩ <;>
      simp [serveHTTP, hacc, hm, hw]
  | false =>
    refine ⟨?_, And.intro (fun hcontra => nomatch hcontra) (fun _ => ?_)⟩ <;>
      simp [serveHTTP, hacc]

/-- Witness for `c2_post_not_writable` at a concrete input. -/
theorem c2_post_not_writable_witness :
    (serveHTTP ⟨"/srv", false⟩ ⟨[("/srv", Node.dir)]⟩ ⟨Method.post, "/x.txt", [7]⟩).2 =
      ⟨[("/srv", Node.dir)]⟩ ∧
    (serveHTTP ⟨"/srv", false⟩ ⟨[("/srv", Node.dir)]⟩ ⟨Method.post, "/x.txt", [7]⟩).1 =
      ⟨403, [], [Piece.str "i'm afraid i can't do that"]⟩ := by
  have h := c2_post_not_writable ⟨"/srv", false⟩ ⟨[("/srv", Node.dir)]⟩
    ⟨Method.post, "/x.txt", [7]⟩ rfl rfl
  exact ⟨h.1, h.2.1 (by decide)⟩

/-- Claim C3: a GET whose resolved path is an existing regular file is
answered 200 with Content-Length equal to the file's size, Content-Type
application/octet-stream, and a body streamed as chunks of the fixed
1 MiB buffer whose concatenation is byte-for-byte the file's contents;
the filesystem is unchanged. -/
theorem c3_get_file (f : FileServer) (fs : FS) (urlPath : String)
    (content : List Nat)
    (hacc : hasPrefixStr (pathJoin f.root urlPath) f.root = true)
    (hstat : fs.stat (pathJoin f.root urlPath) = some (Node.file content)) :
    (serveHTTP f fs ⟨Method.get, urlPath, []⟩).1 =
      ⟨200,
        [("Content-Length", toString content.length),
         ("Content-Type", "application/octet-stream")],
        (copyChunks bufSize content).map Piece.bytes⟩ ∧
    (copyChunks bufSize content).flatten = content ∧
    bufSize = 1024 * 1024 ∧
    (serveHTTP f fs ⟨Method.get, urlPath, []⟩).2 = fs := by
  refine ⟨?_, copyChunks_flatten bufSize content (by decide), rfl, ?_⟩ <;>
    simp [serveHTTP, hacc, handleGet, hstat]

/-- Witness for `c3_get_file` at a concrete input. -/
theorem c3_get_file_witness :
    (serveHTTP ⟨"/srv", false⟩ ⟨[("/srv", Node.dir), ("/srv/f.bin", Node.file [1, 2, 3])]⟩
        ⟨Method.get, "/f.bin", []⟩).1 =
      ⟨200, [("Content-Length", toString ([1, 2, 3] : List Nat).length),
             ("Content-Type", "application/octet-stream")],
        (copyChunks bufSize [1, 2, 3]).map Piece.bytes⟩ ∧
    (copyChunks bufSize [1, 2, 3]).flatten = ([1, 2, 3] : List Nat) ∧
    bufSize = 1024 * 1024 ∧
    (serveHTTP ⟨"/srv", false⟩ ⟨[("/srv", Node.dir), ("/srv/f.bin", Node.file [1, 2, 3])]⟩
        ⟨Method.get, "/f.bin", []⟩).2 =
      ⟨[("/srv", Node.dir), ("/srv/f.bin", Node.file [1, 2, 3])]⟩ :=
  c3_get_file ⟨"/srv", false⟩ ⟨[("/srv", Node.dir), ("/srv/f.bin", Node.file [1, 2, 3])]⟩
    "/f.bin" [1, 2, 3] (by decide) rfl

/-- Claim C8: a GET request never mutates the filesystem, whatever the
path and whatever the outcome of the containment check, stat, listing or
download. -/
theorem c8_get_no_mutation (f : FileServer) (fs : FS) (r : Request)
    (hm : r.method = Method.get) :
    (serveHTTP f fs r).2 = fs := by
  cases hacc : hasPrefixStr (pathJoin f.root r.urlPath) f.root <;>
    simp [serveHTTP, hacc, hm]

/-- Witness for `c8_get_no_mutation` at a concrete input. -/
theorem c8_get_no_mutation_witness :
    (serveHTTP ⟨"/srv", true⟩ ⟨[("/srv", Node.dir)]⟩ ⟨Method.get, "/nope", []⟩).2 =
      ⟨[("/srv", Node.dir)]⟩ :=
  c8_get_no_mutation ⟨"/srv", true⟩ ⟨[("/srv", Node.dir)]⟩ ⟨Method.get, "/nope", []⟩ rfl

/-- Claim C7: a POST with writing enabled, in-bounds path, whose resolved
target exists and is a directory, is answered 400 with the fixed message
"path should not be a existing folder" and the filesystem is unchanged. -/
theorem c7_post_existing_dir (f : FileServer) (fs : FS) (urlPath : String)
    (body : List Nat)
    (hw : f.writable = true)
    (hacc : hasPrefixStr (pathJoin f.root urlPath) f.root = true)
    (hstat : fs.stat (pathJoin f.root urlPath) = some Node.dir) :
    (serveHTTP f fs ⟨Method.post, urlPath, body⟩).1 =
      ⟨400, [], [Piece.str "path should not be a existing folder"]⟩ ∧
    (serveHTTP f fs ⟨Method.post, urlPath, body⟩).2 = fs := by
  refine ⟨?_, ?_⟩ <;> simp [serveHTTP, hacc, hw, handlePost, hstat]

/-- Witness for `c7_post_existing_dir` at a concrete input. -/
theorem c7_post_existing_dir_witness :
    (serveHTTP ⟨"/srv", true⟩ ⟨[("/srv", Node.dir), ("/srv/d", Node.dir)]⟩
        ⟨Method.post, "/d", [9]⟩).1 =
      ⟨400, [], [Piece.str "path should not be a existing folder"]⟩ ∧
    (serveHTTP ⟨"/srv", true⟩ ⟨[("/srv", Node.dir), ("/srv/d", Node.dir)]⟩
        ⟨Method.post, "/d", [9]⟩).2 =
      ⟨[("/srv", Node.dir), ("/srv/d", Node.dir)]⟩ :=
  c7_post_existing_dir ⟨"/srv", true⟩ ⟨[("/srv", Node.dir), ("/srv/d", Node.dir)]⟩
    "/d" [9] rfl (by decide) rfl

/-- Claim C10: a POST with writing enabled and an in-bounds path whose
stat fails (the target does not exist) is not aborted: no error response
is produced (status 200, empty body) and the handler proceeds through
MkdirAll and Create, leaving the uploaded file at the target. -/
theorem c10_stat_failure_proceeds (f : FileServer) (fs fs2 : FS)
    (urlPath : String) (body : List Nat)
    (hw : f.writable = true)
    (hacc : hasPrefixStr (pathJoin f.root urlPath) f.root = true)
    (hstat : fs.stat (pathJoin f.root urlPath) = none)
    (hmk : mkdirAll fs (pathDir (pathJoin f.root urlPath)) = Except.ok fs2) :
    (serveHTTP f fs ⟨Method.post, urlPath, body⟩).1 = ⟨200, [], []⟩ ∧
    (serveHTTP f fs ⟨Method.post, urlPath, body⟩).2 =
      fs2.set (pathJoin f.root urlPath) (Node.file body) := by
  have hbody : (copyChunks bufSize body).flatten = body :=
    copyChunks_flatten bufSize body (by decide)
  refine ⟨?_, ?_⟩ <;> simp [serveHTTP, hacc, hw, handlePost, hstat, hmk, hbody]

/-- Witness for `c10_stat_failure_proceeds` at a concrete input. -/
theorem c10_stat_failure_proceeds_witness :
    (serveHTTP ⟨"/data", true⟩ ⟨[("/data", Node.dir)]⟩
        ⟨Method.post, "/sub/f.bin", [5, 6]⟩).1 = ⟨200, [], []⟩ ∧
    (serveHTTP ⟨"/data", true⟩ ⟨[("/data", Node.dir)]⟩
        ⟨Method.post, "/sub/f.bin", [5, 6]⟩).2 =
      FS.set ⟨[("/data", Node.dir), ("/data/sub", Node.dir)]⟩
        "/data/sub/f.bin" (Node.file [5, 6]) :=
  c10_stat_failure_proceeds ⟨"/data", true⟩ ⟨[("/data", Node.dir)]⟩
    ⟨[("/data", Node.dir), ("/data/sub", Node.dir)]⟩
    "/sub/f.bin" [5, 6] rfl (by decide) rfl rfl

/-- Claim C4: with writing enabled and an in-bounds target that does not
yet exist, a POST of body `B` succeeds (status 200), creates the missing
parent directory chain (MkdirAll succeeds and leaves a directory at the
parent) and a file whose contents equal `B` exactly, and a subsequent GET
of the same path returns status 200 with Content-Length `|B|` and a body
whose chunks concatenate to exactly `B`. -/
theorem c4_upload_roundtrip (f : FileServer) (fs fs2 : FS) (urlPath : String)
    (body : List Nat)
    (hw : f.writable = true)
    (hacc : hasPrefixStr (pathJoin f.root urlPath) f.root = true)
    (hstat : fs.stat (pathJoin f.root urlPath) = none)
    (hmk : mkdirAll fs (pathDir (pathJoin f.root urlPath)) = Except.ok fs2)
    (hne : pathDir (pathJoin f.root urlPath) ≠ pathJoin f.root urlPath) :
    (serveHTTP f fs ⟨Method.post, urlPath, body⟩).1.status = 200 ∧
    ((serveHTTP f fs ⟨Method.post, urlPath, body⟩).2).stat
        (pathJoin f.root urlPath) = some (Node.file body) ∧
    ((serveHTTP f fs ⟨Method.post, urlPath, body⟩).2).stat
        (pathDir (pathJoin f.root urlPath)) = some Node.dir ∧
    (serveHTTP f ((serveHTTP f fs ⟨Method.post, urlPath, body⟩).2)
        ⟨Method.get, urlPath, []⟩).1 =
      ⟨200,
        [("Content-Length", toString body.length),
         ("Content-Type", "application/octet-stream")],
        (copyChunks bufSize body).map Piece.bytes⟩ ∧
    (copyChunks bufSize body).flatten = body := by
  have hbody : (copyChunks bufSize body).flatten = body :=
    copyChunks_flatten bufSize body (by decide)
  have hpost : (serveHTTP f fs ⟨Method.post, urlPath, body⟩).2 =
      FS.set fs2 (pathJoin f.root urlPath) (Node.file body) := by
    simp [serveHTTP, hacc, hw, handlePost, hstat, hmk, hbody]
  have hself : (FS.set fs2 (pathJoin f.root urlPath) (Node.file body)).stat
      (pathJoin f.root urlPath) = some (Node.file body) :=
    FS.stat_set_self fs2 (pathJoin f.root urlPath) (Node.file body)
  have hparent : (FS.set fs2 (pathJoin f.root urlPath) (Node.file body)).stat
      (pathDir (pathJoin f.root urlPath)) = some Node.dir := by
    rw [FS.stat_set_other fs2 (pathJoin f.root urlPath)
      (pathDir (pathJoin f.root urlPath)) (Node.file body) hne]
    exact mkdirAll_ok_stat fs fs2 (pathDir (pathJoin f.root urlPath)) hmk
  refine ⟨?_, ?_, ?_, ?_, hbody⟩
  · simp [serveHTTP, hacc, hw, handlePost, hstat, hmk]
  · rw [hpost]; exact hself
  · rw [hpost]; exact hparent
  · rw [hpost]
    simp [serveHTTP, hacc, handleGet, hself]

/-- Witness for `c4_upload_roundtrip`: the spec scenario base=/srv,
POST /new/deep/file.txt with body "hello" (bytes 104 101 108 108 111). -/
theorem c4_upload_roundtrip_witness :
    (serveHTTP ⟨"/srv", true⟩ ⟨[("/srv", Node.dir)]⟩
        ⟨Method.post, "/new/deep/file.txt", [104, 101, 108, 108, 111]⟩).1.status
      = 200 ∧
    ((serveHTTP ⟨"/srv", true⟩ ⟨[("/srv", Node.dir)]⟩
        ⟨Method.post, "/new/deep/file.txt", [104, 101, 108, 108, 111]⟩).2).stat
        (pathJoin "/srv" "/new/deep/file.txt")
      = some (Node.file [104, 101, 108, 108, 111]) ∧
    ((serveHTTP ⟨"/srv", true⟩ ⟨[("/srv", Node.dir)]⟩
        ⟨Method.post, "/new/deep/file.txt", [104, 101, 108, 108, 111]⟩).2).stat
        (pathDir (pathJoin "/srv" "/new/deep/file.txt"))
      = some Node.dir ∧
    (serveHTTP ⟨"/srv", true⟩
        ((serveHTTP ⟨"/srv", true⟩ ⟨[("/srv", Node.dir)]⟩
          ⟨Method.post, "/new/deep/file.txt", [104, 101, 108, 108, 111]⟩).2)
        ⟨Method.get, "/new/deep/file.txt", []⟩).1 =
      ⟨200,
        [("Content-Length", toString ([104, 101, 108, 108, 111] : List Nat).length),
         ("Content-Type", "application/octet-stream")],
        (copyChunks bufSize [104, 101, 108, 108, 111]).map Piece.bytes⟩ ∧
    (copyChunks bufSize [104, 101, 108, 108, 111]).flatten
      = ([104, 101, 108, 108, 111] : List Nat) :=
  c4_upload_roundtrip ⟨"/srv", true⟩ ⟨[("/srv", Node.dir)]⟩
    ⟨[("/srv", Node.dir), ("/srv/new", Node.dir), ("/srv/new/deep", Node.dir)]⟩
    "/new/deep/file.txt" [104, 101, 108, 108, 111]
    rfl (by decide) rfl rfl (by decide)

set_option maxRecDepth 8192 in
/-- Claim C5, refuted at a concrete input: a directory whose native
enumeration order is ["b", "a"] is rendered with its entries in
filename-sorted order ["a", "b"], because `os.ReadDir` sorts by filename;
the listing is not in the native enumeration order the claim states. -/
theorem c5_counterexample :
    FS.childNames
        ⟨[("/srv", Node.dir), ("/srv/b", Node.file []), ("/srv/a", Node.file [])]⟩
        "/srv" = ["b", "a"] ∧
    (serveHTTP ⟨"/srv", false⟩
        ⟨[("/srv", Node.dir), ("/srv/b", Node.file []), ("/srv/a", Node.file [])]⟩
        ⟨Method.get, "/", []⟩).1.out =
      [Piece.str HTML_PRELUDE, Piece.str "<h1>Files in /srv</h1>",
       Piece.str (listItem "/" "a"), Piece.str (listItem "/" "b")] ∧
    (serveHTTP ⟨"/srv", false⟩
        ⟨[("/srv", Node.dir), ("/srv/b", Node.file []), ("/srv/a", Node.file [])]⟩
        ⟨Method.get, "/", []⟩).1.out ≠
      [Piece.str HTML_PRELUDE, Piece.str "<h1>Files in /srv</h1>",
       Piece.str (listItem "/" "b"), Piece.str (listItem "/" "a")] := by
  refine ⟨rfl, rfl, ?_⟩
  decide

/-- Claim C5 as amended: a GET on an existing in-bounds directory returns
200 and renders the document prelude, the heading naming the resolved
directory, and one list item per immediate child — each a hyperlink whose
href is the request path joined with the entry's name and whose text is
the entry's name — in filename-sorted order (`os.ReadDir` sorts); the
rendered set of entries is exactly (a permutation of) the directory's
immediate children, and the filesystem is unchanged. -/
theorem c5_dir_listing (f : FileServer) (fs : FS) (urlPath : String)
    (hacc : hasPrefixStr (pathJoin f.root urlPath) f.root = true)
    (hstat : fs.stat (pathJoin f.root urlPath) = some Node.dir) :
    (serveHTTP f fs ⟨Method.get, urlPath, []⟩).1 =
      ⟨200, [],
        Piece.str HTML_PRELUDE
          :: Piece.str ("<h1>Files in " ++ pathJoin f.root urlPath ++ "</h1>")
          :: (fs.readDir (pathJoin f.root urlPath)).map
              (fun name => Piece.str (listItem urlPath name))⟩ ∧
    List.Perm (fs.readDir (pathJoin f.root urlPath))
      (fs.childNames (pathJoin f.root urlPath)) ∧
    (serveHTTP f fs ⟨Method.get, urlPath, []⟩).2 = fs := by
  refine ⟨?_, sortByName_perm _, ?_⟩ <;>
    simp [serveHTTP, hacc, handleGet, hstat, writeHTMLPrelude, FS.readDir]

/-- Witness for `c5_dir_listing` at a concrete input. -/
theorem c5_dir_listing_witness :
    (serveHTTP ⟨"/srv", false⟩ ⟨[("/srv", Node.dir), ("/srv/a", Node.file [])]⟩
        ⟨Method.get, "/", []⟩).1 =
      ⟨200, [],
        Piece.str HTML_PRELUDE
          :: Piece.str ("<h1>Files in " ++ pathJoin "/srv" "/" ++ "</h1>")
          :: (FS.readDir ⟨[("/srv", Node.dir), ("/srv/a", Node.file [])]⟩
              (pathJoin "/srv" "/")).map
              (fun name => Piece.str (listItem "/" name))⟩ ∧
    List.Perm
      (FS.readDir ⟨[("/srv", Node.dir), ("/srv/a", Node.file [])]⟩
        (pathJoin "/srv" "/"))
      (FS.childNames ⟨[("/srv", Node.dir), ("/srv/a", Node.file [])]⟩
        (pathJoin "/srv" "/")) ∧
    (serveHTTP ⟨"/srv", false⟩ ⟨[("/srv", Node.dir), ("/srv/a", Node.file [])]⟩
        ⟨Method.get, "/", []⟩).2 =
      ⟨[("/srv", Node.dir), ("/srv/a", Node.file [])]⟩ :=
  c5_dir_listing ⟨"/srv", false⟩ ⟨[("/srv", Node.dir), ("/srv/a", Node.file [])]⟩
    "/" (by decide) rfl

/-- Claim C6, refuted at a concrete input: with `writable = false` the
prelude written by `WriteHTMLPrelude` still contains the inline upload
form — `HTML_PRELUDE` is a constant and the method ignores the
configuration entirely. -/
theorem c6_counterexample :
    (⟨"/srv", false⟩ : FileServer).writable = false ∧
    writeHTMLPrelude ⟨"/srv", false⟩ =
      PRELUDE_BEFORE_FORM ++ UPLOAD_FORM ++ PRELUDE_AFTER_FORM :=
  ⟨rfl, rfl⟩

/-- Claim C6 as amended: the directory-listing prelude is the same for
every configuration — it never depends on `writable` — and it always
contains the inline upload form. -/
theorem c6_prelude_always_has_form (f g : FileServer) :
    writeHTMLPrelude f = writeHTMLPrelude g ∧
    ∃ a b, writeHTMLPrelude f = a ++ UPLOAD_FORM ++ b :=
  ⟨rfl, PRELUDE_BEFORE_FORM, PRELUDE_AFTER_FORM, rfl⟩

/-- Claim C9, refuted at a concrete input: a configured base that does
not exist makes `NewFileServer` fail with the underlying stat error, not
with the `NotADirectory` error the claim names for that case. -/
theorem c9_counterexample :
    newFileServer "/" "/missing" true ⟨[]⟩ = Except.error NewFSError.statErr ∧
    FS.stat ⟨[]⟩ (filepathAbs "/" "/missing") = none ∧
    NewFSError.statErr ≠ NewFSError.notADir :=
  ⟨rfl, rfl, by decide⟩

/-- Claim C9 as amended: construction fails with the stat error when the
base does not exist, fails with `NotADirectory` when it exists but is a
regular file, and on success stores the absolute (cleaned) form of the
configured path together with the writable flag. -/
theorem c9_new_file_server (cwd root : String) (writable : Bool) (fs : FS) :
    (fs.stat (filepathAbs cwd root) = none →
      newFileServer cwd root writable fs = Except.error NewFSError.statErr) ∧
    (∀ c, fs.stat (filepathAbs cwd root) = some (Node.file c) →
      newFileServer cwd root writable fs = Except.error NewFSError.notADir) ∧
    (fs.stat (filepathAbs cwd root) = some Node.dir →
      newFileServer cwd root writable fs =
        Except.ok ⟨filepathAbs cwd root, writable⟩) := by
  refine ⟨fun h => ?_, fun c h => ?_, fun h => ?_⟩ <;>
    simp [newFileServer, h]

/-- Witness for `c9_new_file_server` at concrete inputs: a relative root
"data" under cwd "/srv" resolves to "/srv/data" and succeeds; a missing
root fails with the stat error. -/
theorem c9_new_file_server_witness :
    newFileServer "/srv" "data" true ⟨[("/srv", Node.dir), ("/srv/data", Node.dir)]⟩
      = Except.ok ⟨"/srv/data", true⟩ ∧
    newFileServer "/srv" "nope" false ⟨[("/srv", Node.dir)]⟩
      = Except.error NewFSError.statErr := by
  constructor
  · have h := (c9_new_file_server "/srv" "data" true
      ⟨[("/srv", Node.dir), ("/srv/data", Node.dir)]⟩).2.2 rfl
    exact h.trans (congrArg (fun s => Except.ok (⟨s, true⟩ : FileServer))
      (by decide : filepathAbs "/srv" "data" = "/srv/data"))
  · exact (c9_new_file_server "/srv" "nope" false ⟨[("/srv", Node.dir)]⟩).1 rfl
